import Mathlib

/-!
# Verification of the Conditional Access matrix generator (`pymatrix.py`)

A shallow embedding of the core of `pymatrix.py`:

* the Python string primitives the script relies on (`str.replace`,
  `str.lower`, substring membership `in`), modelled character-wise with the
  semantics of the CPython operations actually used;
* the Graph paginator `get_all_with_next_link` (the `while endpoint:` loop),
  modelled with an explicit page-fetch function and a fuel bound for the loop;
* the policy evaluator `calculate_included`;
* the per-user worker `process_user`, with the Python `dict` modelled as an
  insertion-ordered association list;
* the argument validation performed by `parse_arguments` (argparse) and the
  user-filter block of `main` (group filter, type filter, random sample,
  count cap), with the random draw of `random.sample` made an explicit input.

Machine floats appear in the source only as the `--sample` ratio; the ratio is
modelled as a rational number, which is exact for every decimal ratio
considered in the theorems below (`0`, `1`, `2`, `1/2`), so the rational model
agrees with the IEEE-754 arithmetic the interpreter performs there.
-/

namespace PyMatrix

/-! ## Python string primitives -/

/-- One step per character, as in CPython `str.replace`: scan left to right,
replacing non-overlapping occurrences of `pat` by `rep`.  `fuel` bounds the
scan; `fuel = length of the scanned list` suffices whenever `pat` is
non-empty, which holds at every call site in the script. -/
def pyReplaceAux (pat rep : List Char) : Nat → List Char → List Char
  | 0, l => l
  | _, [] => []
  | fuel + 1, c :: rest =>
    if pat.isPrefixOf (c :: rest) then
      rep ++ pyReplaceAux pat rep fuel ((c :: rest).drop pat.length)
    else
      c :: pyReplaceAux pat rep fuel rest

/-- Python `s.replace(pat, rep)` (all occurrences, left to right). -/
def pyReplace (s pat rep : String) : String :=
  ⟨pyReplaceAux pat.data rep.data s.data.length s.data⟩

/-- Python `s.lower()` restricted to the ASCII range, which is all the script
compares (`member` / `guest`). -/
def pyLower (s : String) : String :=
  ⟨s.data.map Char.toLower⟩

/-- Python `sub in s`: substring containment. -/
def pyInStr (sub s : String) : Bool :=
  (List.range (s.data.length + 1)).any fun i => sub.data.isPrefixOf (s.data.drop i)

/-! ## Graph pages and the paginator (`get_all_with_next_link`, lines 61-68) -/

/-- One page of a Graph response: the `value` array and
`data.get('@odata.nextLink', '')` (the empty string when the cursor is
absent, exactly as the script reads it). -/
structure Page (α : Type) where
  value : List α
  nextLink : String
deriving DecidableEq, Repr

/-- An upstream failure surfaced by `response.raise_for_status()` (HTTP error
status) or by the transport, carried as its message. -/
abbrev UpstreamError := String

/-- `data.get('@odata.nextLink', '').replace('https://graph.microsoft.com/v1.0', '')`
(line 67). -/
def stripGraphOrigin (s : String) : String :=
  pyReplace s "https://graph.microsoft.com/v1.0" ""

/-- `get_all_with_next_link` (lines 61-68).  `fetch` is the page-fetch
primitive (`call_microsoft_graph`, which raises on any non-2xx status, hence
`Except`).  The `while endpoint:` loop is given explicit fuel; any fuel at
least the number of pages of a terminating source is enough.  An exception
from `fetch` propagates out of the loop and the local `results` list is
discarded, hence the `Except` result with no partial list. -/
def get_all_with_next_link {α : Type} (fetch : String → Except UpstreamError (Page α)) :
    Nat → String → Except UpstreamError (List α)
  | 0, _ => .ok []
  | fuel + 1, endpoint =>
    if endpoint = "" then .ok []
    else
      match fetch endpoint with
      | .error e => .error e
      | .ok data =>
        match get_all_with_next_link fetch fuel (stripGraphOrigin data.nextLink) with
        | .error e => .error e
        | .ok rest => .ok (data.value ++ rest)

/-- The endpoints `get_all_with_next_link` requests, in order: the same
recursion as the loop, recording each `call_microsoft_graph` argument.  The
trace stops where the loop stops (cursor absent, or a fetch raised). -/
def get_all_requests {α : Type} (fetch : String → Except UpstreamError (Page α)) :
    Nat → String → List String
  | 0, _ => []
  | fuel + 1, endpoint =>
    if endpoint = "" then []
    else
      endpoint ::
        match fetch endpoint with
        | .error _ => []
        | .ok data => get_all_requests fetch fuel (stripGraphOrigin data.nextLink)

/-! ## Policies and users -/

/-- `policy['conditions']['users']`.  Each list is optional: the script reads
every one of these four fields with `.get(key, [])`, so an absent field is
the empty list. -/
structure UsersConditions where
  excludeUsers : Option (List String)
  excludeGroups : Option (List String)
  includeUsers : Option (List String)
  includeGroups : Option (List String)
deriving DecidableEq, Repr

/-- A Conditional Access policy as the script consumes it: `displayName`
(read with direct indexing in `process_user`) and the user conditions. -/
structure Policy where
  displayName : String
  conditions_users : UsersConditions
deriving DecidableEq, Repr

/-- A directory user as selected by the `/users` query
(`$select=id,userPrincipalName,displayName,jobTitle,accountEnabled,userType`).
All fields other than `id` are read with `.get`, so they are optional;
`id` is read with direct indexing. -/
structure User where
  id : String
  displayName : Option String
  userPrincipalName : Option String
  jobTitle : Option String
  accountEnabled : Option Bool
  userType : Option String
deriving DecidableEq, Repr

/-- `calculate_included` (lines 80-96), verbatim rule order:
exclude-users, exclude-groups, include-all sentinel, include-users,
include-groups. -/
def calculate_included (policy : Policy) (user : User) (group_list : List String) : Bool :=
  if (policy.conditions_users.excludeUsers.getD []).contains user.id then
    false
  else
    let excluded_groups := policy.conditions_users.excludeGroups.getD []
    if group_list.any (fun group => excluded_groups.contains group) then
      false
    else if (policy.conditions_users.includeUsers.getD []).contains "All" then
      true
    else if (policy.conditions_users.includeUsers.getD []).contains user.id then
      true
    else
      let included_groups := policy.conditions_users.includeGroups.getD []
      group_list.any fun group => included_groups.contains group

/-! ## `process_user` (lines 98-116): the per-user worker -/

/-- A value stored in the per-user result `dict`: the five metadata fields
are strings or booleans, and every policy column is a boolean. -/
inductive Val where
  | str (s : String)
  | bool (b : Bool)
deriving DecidableEq, Repr

/-- Python `d[k] = v` on an insertion-ordered `dict`, modelled on an
association list: an existing key keeps its position and gets the new value,
a new key is appended. -/
def pyDictInsert (k : String) (v : Val) : List (String × Val) → List (String × Val)
  | [] => [(k, v)]
  | (k', v') :: rest =>
    if k' = k then (k, v) :: rest else (k', v') :: pyDictInsert k v rest

/-- `user.get('displayName', '').replace(',', '').replace(';', '')`
(also used for `jobTitle`). -/
def sanitizeCommaSemi (s : String) : String :=
  pyReplace (pyReplace s "," "") ";" ""

/-- `user.get('userPrincipalName', '').replace(',', '')`. -/
def sanitizeComma (s : String) : String :=
  pyReplace s "," ""

/-- The `memberOf` endpoint the worker queries for one user (line 109). -/
def memberOfEndpoint (uid : String) : String :=
  "/users/" ++ uid ++ "/memberOf?$select=id"

/-- The metadata fields of the result record (lines 100-106), a `dict`
literal with five distinct keys. -/
def userResultBase (user : User) : List (String × Val) :=
  [("user", .str (sanitizeCommaSemi (user.displayName.getD ""))),
   ("upn", .str (sanitizeComma (user.userPrincipalName.getD ""))),
   ("job", .str (sanitizeCommaSemi (user.jobTitle.getD ""))),
   ("external", .bool (pyInStr "#EXT#" (user.userPrincipalName.getD ""))),
   ("enabled", .bool (user.accountEnabled.getD false))]

/-- `process_user` (lines 98-116).  The worker issues a single
`call_microsoft_graph` on the user's `memberOf` endpoint (no pagination
loop), projects the group ids of that one response (`$select=id`, so a group
object is its id here), and then writes one `dict` entry per policy, keyed
by `policy['displayName']`.  A fetch exception propagates (`Except`). -/
def process_user (fetch : String → Except UpstreamError (Page String)) (user : User)
    (ca_policies : List Policy) : Except UpstreamError (List (String × Val)) :=
  match fetch (memberOfEndpoint user.id) with
  | .error e => .error e
  | .ok groups =>
    let group_list := groups.value
    .ok (ca_policies.foldl
      (fun acc policy =>
        pyDictInsert policy.displayName
          (.bool (calculate_included policy user group_list)) acc)
      (userResultBase user))

/-! ## Argument parsing (lines 24-35) and the user-filter block of `main`
(lines 154-169) -/

/-- The command-line configuration (lines 24-35).  `type` is the raw string
typed after `-t` (argparse validates it against its `choices`); `sample` is
the `--sample` float, modelled as a rational. -/
structure Args where
  include_report_only : Bool := false
  number : Option Int := none
  groups : Option (List String) := none
  type : Option String := none
  sample : Option ℚ := none
  parallel : Int := 1
  timeout : Int := 10
  no_pause : Bool := false
deriving DecidableEq, Repr

/-- `parse_arguments` (lines 24-35): the only value check argparse performs
on these arguments is `choices=['member', 'guest']` for `-t (--type)`; every
float is accepted for `-s (--sample)` and every int for `-n (--number)`.  An
invalid choice makes argparse exit with a usage error before `main` runs
anything else. -/
def parse_arguments (args : Args) : Except String Args :=
  match args.type with
  | some t =>
    if t = "member" ∨ t = "guest" then .ok args
    else .error ("argument -t (--type): invalid choice: " ++ t)
  | none => .ok args

/-- Python `int(q)`: truncation toward zero. -/
def pyInt (q : ℚ) : Int := q.num.tdiv q.den

/-- Python `l[:k]` for an `int` `k`: a negative stop counts from the end. -/
def pySliceTo {α : Type} (l : List α) (k : Int) : List α :=
  l.take (if k < 0 then ((l.length : Int) + k).toNat else k.toNat)

/-- `random.sample(l, k)` (line 166): raises `ValueError` unless
`0 ≤ k ≤ len(l)`, and otherwise returns `k` distinct elements in the order
the generator draws them.  The draw is made explicit: `σ` is the sequence of
distinct indices the generator picks; the result is the first `k` picks. -/
def random_sample {α : Type} (l : List α) (k : Int) (σ : List Nat) :
    Except String (List α) :=
  if k < 0 ∨ (l.length : Int) < k then
    .error "Sample larger than population or is negative"
  else
    .ok ((σ.take k.toNat).filterMap fun i => l[i]?)

/-- Python truthiness of `args.groups` / a string option: `None` and the
empty value are falsy. -/
def pyTruthyListOpt (o : Option (List String)) : Bool :=
  match o with
  | some (_ :: _) => true
  | _ => false

/-- Python truthiness of `args.type`. -/
def pyTruthyStrOpt (o : Option String) : Bool :=
  match o with
  | some t => t ≠ ""
  | none => false

/-- The user-filter block of `main` (lines 154-169), applied to the fetched
`users` list: group filter (against the resolved union `group_members` of
the requested groups' member ids), then type filter, then random sampling,
then the count cap.  Each `if args.X:` guard is Python truthiness, so
`--sample 0` and `-n 0` skip their steps.  `σ` is the index draw consumed by
`random.sample`. -/
def filter_users (args : Args) (group_members : List String) (σ : List Nat)
    (users : List User) : Except String (List User) :=
  let users1 :=
    if pyTruthyListOpt args.groups then
      users.filter fun user => group_members.contains user.id
    else users
  let users2 :=
    if pyTruthyStrOpt args.type then
      users1.filter fun user => pyLower (user.userType.getD "") = args.type.getD ""
    else users1
  let step3 : Except String (List User) :=
    match args.sample with
    | some r =>
      if r = 0 then .ok users2
      else random_sample users2 (pyInt ((users2.length : ℚ) * r)) σ
    | none => .ok users2
  match step3 with
  | .error e => .error e
  | .ok users3 =>
    .ok (match args.number with
      | some k => if k = 0 then users3 else pySliceTo users3 k
      | none => users3)

/-! ## A trace model of `main`'s orchestration (lines 133-186) -/

/-- An observable step of the run: each Graph fetch `main` (or a worker)
performs. -/
inductive Event where
  | fetchPolicies
  | fetchUsers
  | fetchGroupMembers (group : String)
  | fetchMemberOf (uid : String)
deriving DecidableEq, Repr

/-- How a run terminates abnormally: an argparse usage error (`ConfigError`),
or a Python exception raised mid-run (`ValueError` from `random.sample`). -/
inductive RunError where
  | configError (msg : String)
  | valueError (msg : String)
deriving DecidableEq, Repr

/-- The order of observable steps of `main` (lines 133-186) on a run whose
upstream fetches succeed, returning the fetch-event trace and the error that
ends the run, if any.  Argument parsing happens first (line 135); the policy
and user fetches (lines 141-151) and the group-member fetches of the group
filter (lines 154-159) all precede the sampling step (lines 164-166); one
`memberOf` fetch per surviving user follows (line 109). -/
def run_model (raw : Args) (group_members : List String) (σ : List Nat)
    (users : List User) : List Event × Option RunError :=
  match parse_arguments raw with
  | .error m => ([], some (.configError m))
  | .ok args =>
    let fetchEvents :=
      [Event.fetchPolicies, Event.fetchUsers] ++
        (if pyTruthyListOpt args.groups then
          (args.groups.getD []).map Event.fetchGroupMembers
        else [])
    match filter_users args group_members σ users with
    | .error m => (fetchEvents, some (.valueError m))
    | .ok filtered =>
      (fetchEvents ++ filtered.map fun user => Event.fetchMemberOf user.id, none)

/-! ## The evaluator: precedence, exclusion dominance, totality, purity -/

/-- C1: `calculate_included` returns exactly the boolean given by the
first-match precedence exclude-users, exclude-groups, include-"All",
include-users, include-groups, with a final default of false. -/
theorem calculate_included_precedence (p : Policy) (u : User) (gl : List String) :
    calculate_included p u gl =
      if u.id ∈ p.conditions_users.excludeUsers.getD [] then false
      else if ∃ g ∈ gl, g ∈ p.conditions_users.excludeGroups.getD [] then false
      else if "All" ∈ p.conditions_users.includeUsers.getD [] then true
      else if u.id ∈ p.conditions_users.includeUsers.getD [] then true
      else decide (∃ g ∈ gl, g ∈ p.conditions_users.includeGroups.getD []) := by
  have hAny : (gl.any fun group =>
      decide (group ∈ p.conditions_users.includeGroups.getD [])) =
      decide (∃ g ∈ gl, g ∈ p.conditions_users.includeGroups.getD []) := by
    rw [Bool.eq_iff_iff]
    simp [List.any_eq_true]
  simp [calculate_included, hAny]

/-- C5: exclusions always override inclusions: a user id listed in
`excludeUsers` evaluates to false whatever the include rules say (including
the "All" sentinel), and membership in any excluded group evaluates to false
whatever the include rules say. -/
theorem calculate_included_exclusion_overrides (p : Policy) (u : User) (gl : List String) :
    (u.id ∈ p.conditions_users.excludeUsers.getD [] → calculate_included p u gl = false) ∧
    ((∃ g ∈ gl, g ∈ p.conditions_users.excludeGroups.getD []) →
      calculate_included p u gl = false) := by
  constructor
  · intro h
    simp [calculate_included, h]
  · intro h
    simp [calculate_included, h]

/-- Concrete instantiation of `calculate_included_exclusion_overrides`: the
spec's scenario policy (`includeUsers = {"All"}`, `excludeGroups = {"G1"}`,
plus `excludeUsers = {"u1"}` and `includeGroups = {"G1"}`): user `u1` is
excluded by id and any user in `G1` is excluded by group, despite the "All"
sentinel and the group inclusion. -/
theorem calculate_included_exclusion_overrides_witness :
    calculate_included
        ⟨"P1", ⟨some ["u1"], some ["G1"], some ["All"], some ["G1"]⟩⟩
        ⟨"u1", none, none, none, none, none⟩ [] = false ∧
    calculate_included
        ⟨"P1", ⟨some ["u1"], some ["G1"], some ["All"], some ["G1"]⟩⟩
        ⟨"u2", none, none, none, none, none⟩ ["G1"] = false :=
  ⟨(calculate_included_exclusion_overrides _ _ _).1 (by decide),
   (calculate_included_exclusion_overrides _ _ _).2 ⟨"G1", by decide, by decide⟩⟩

/-- C6: the evaluator is total, a missing condition field behaves exactly as
the empty set (the `.get(key, [])` reads), and a policy with all four
condition sets empty evaluates to false for every user and group list. -/
theorem calculate_included_missing_fields (p : Policy) (u : User) (gl : List String) :
    calculate_included p u gl =
      calculate_included
        ⟨p.displayName,
         ⟨some (p.conditions_users.excludeUsers.getD []),
          some (p.conditions_users.excludeGroups.getD []),
          some (p.conditions_users.includeUsers.getD []),
          some (p.conditions_users.includeGroups.getD [])⟩⟩ u gl ∧
    calculate_included ⟨p.displayName, ⟨none, none, none, none⟩⟩ u gl = false ∧
    calculate_included ⟨p.displayName, ⟨some [], some [], some [], some []⟩⟩ u gl = false := by
  refine ⟨rfl, ?_, ?_⟩ <;> simp [calculate_included]

/-- C9: the evaluator consults no user attribute other than the id: two
users with the same id get the same boolean from every policy and group
list. -/
theorem calculate_included_pure (p : Policy) (u1 u2 : User) (gl : List String)
    (h : u1.id = u2.id) :
    calculate_included p u1 gl = calculate_included p u2 gl := by
  simp only [calculate_included, h]

/-- Concrete instantiation of `calculate_included_pure`: two users sharing
an id but differing in every other attribute evaluate identically. -/
theorem calculate_included_pure_witness :
    calculate_included ⟨"P1", ⟨none, none, some ["All"], none⟩⟩
        ⟨"u1", some "Alice", some "a@x.com", some "Eng", some true, some "Member"⟩ [] =
      calculate_included ⟨"P1", ⟨none, none, some ["All"], none⟩⟩
        ⟨"u1", some "Bob", some "b@y.com#EXT#", none, some false, some "Guest"⟩ [] :=
  calculate_included_pure _ _ _ _ rfl

/-! ## The paginator: complete concatenation and all-or-nothing failure -/

/-- The endpoint the loop will request when the given chain is exhausted:
the first endpoint of the chain, or `d` once the chain is done. -/
def headEndpointD {α : Type} (d : String) : List (String × Page α) → String
  | [] => d
  | (e, _) :: _ => e

/-- A cursor chain of `fetch` ending at endpoint `last`: every listed
endpoint is non-empty, fetching it succeeds with the paired page, and each
page's stripped cursor is the next listed endpoint (`last` after the final
page; a source whose cursors terminate has `last = ""`). -/
def chainOkUntil {α : Type} (fetch : String → Except UpstreamError (Page α))
    (last : String) : List (String × Page α) → Prop
  | [] => True
  | (e, p) :: rest =>
    e ≠ "" ∧ fetch e = .ok p ∧
      stripGraphOrigin p.nextLink = headEndpointD last rest ∧
      chainOkUntil fetch last rest

/-- C7: on a terminating cursor chain, the paginator returns exactly the
ordered concatenation of the pages' `value` arrays, given fuel at least the
number of pages. -/
theorem get_all_with_next_link_complete {α : Type}
    (fetch : String → Except UpstreamError (Page α))
    (chain : List (String × Page α)) (fuel : Nat)
    (hchain : chainOkUntil fetch "" chain) (hfuel : chain.length ≤ fuel) :
    get_all_with_next_link fetch fuel (headEndpointD "" chain) =
      .ok (chain.map fun ep => ep.2.value).flatten := by
  induction chain generalizing fuel with
  | nil =>
    cases fuel <;> simp [get_all_with_next_link, headEndpointD]
  | cons ep rest ih =>
    obtain ⟨e, p⟩ := ep
    obtain ⟨he, hf, hnext, hrest⟩ := hchain
    obtain ⟨f, rfl⟩ : ∃ f, fuel = f + 1 :=
      ⟨fuel - 1, by simp at hfuel; omega⟩
    have hr := ih f hrest (by simp at hfuel; omega)
    show get_all_with_next_link fetch (f + 1) e = _
    simp only [get_all_with_next_link, if_neg he, hf, hnext, hr,
      List.map_cons, List.flatten_cons]

/-- A 3-page source with pages of sizes 100, 100 and 37; the second and
third cursors carry the full Graph origin that line 67 strips. -/
def pagedSource3 : String → Except UpstreamError (Page Nat) := fun endpoint =>
  if endpoint = "/page1" then
    .ok ⟨List.range' 0 100, "https://graph.microsoft.com/v1.0/page2"⟩
  else if endpoint = "/page2" then
    .ok ⟨List.range' 100 100, "https://graph.microsoft.com/v1.0/page3"⟩
  else if endpoint = "/page3" then
    .ok ⟨List.range' 200 37, ""⟩
  else .error "404 Client Error"

/-- The cursor chain of `pagedSource3`. -/
def pagedChain3 : List (String × Page Nat) :=
  [("/page1", ⟨List.range' 0 100, "https://graph.microsoft.com/v1.0/page2"⟩),
   ("/page2", ⟨List.range' 100 100, "https://graph.microsoft.com/v1.0/page3"⟩),
   ("/page3", ⟨List.range' 200 37, ""⟩)]

set_option maxRecDepth 10000 in
/-- Concrete instantiation of `get_all_with_next_link_complete`: the 3-page
source (100 + 100 + 37 items) yields exactly the 237 items `0..236` in page
order — no duplicates, no gaps. -/
theorem get_all_with_next_link_complete_witness :
    get_all_with_next_link pagedSource3 3 "/page1" = .ok (List.range 237) ∧
    (List.range 237).Nodup ∧ (List.range 237).length = 237 := by
  have h := get_all_with_next_link_complete pagedSource3 pagedChain3 3
    (by exact ⟨by decide, rfl, by decide, by decide, rfl, by decide, by decide, rfl,
      by decide, trivial⟩)
    (by decide)
  refine ⟨?_, List.nodup_range 237, List.length_range 237⟩
  have hflat : ((pagedChain3.map fun ep => ep.2.value).flatten) = List.range 237 := by
    decide
  rw [hflat] at h
  exact h

/-- C8: if any page fetch of the chain fails, the paginator surfaces exactly
that error with no partial item list, and its request trace is each chain
endpoint once, in order, ending at the failing endpoint — no retry. -/
theorem get_all_with_next_link_all_or_nothing {α : Type}
    (fetch : String → Except UpstreamError (Page α))
    (chain : List (String × Page α)) (bad : String) (err : UpstreamError) (fuel : Nat)
    (hchain : chainOkUntil fetch bad chain) (hbad : bad ≠ "")
    (hfetch : fetch bad = .error err) (hfuel : chain.length < fuel) :
    get_all_with_next_link fetch fuel (headEndpointD bad chain) = .error err ∧
    get_all_requests fetch fuel (headEndpointD bad chain) =
      chain.map Prod.fst ++ [bad] := by
  induction chain generalizing fuel with
  | nil =>
    obtain ⟨f, rfl⟩ : ∃ f, fuel = f + 1 := ⟨fuel - 1, by omega⟩
    constructor <;>
      simp [get_all_with_next_link, get_all_requests, headEndpointD, if_neg hbad, hfetch]
  | cons ep rest ih =>
    obtain ⟨e, p⟩ := ep
    obtain ⟨he, hf, hnext, hrest⟩ := hchain
    obtain ⟨f, rfl⟩ : ∃ f, fuel = f + 1 :=
      ⟨fuel - 1, by simp at hfuel; omega⟩
    have hr := ih f hrest (by simp at hfuel; omega)
    constructor
    · show get_all_with_next_link fetch (f + 1) e = _
      simp only [get_all_with_next_link, if_neg he, hf, hnext, hr.1]
    · show get_all_requests fetch (f + 1) e = _
      simp only [get_all_requests, if_neg he, hf, hnext, hr.2,
        List.map_cons, List.cons_append]

/-- A source whose second page fetch fails with an HTTP 503. -/
def failingSource : String → Except UpstreamError (Page Nat) := fun endpoint =>
  if endpoint = "/pg1" then .ok ⟨[1, 2], "https://graph.microsoft.com/v1.0/pg2"⟩
  else .error "503 Server Error"

/-- Concrete instantiation of `get_all_with_next_link_all_or_nothing`: page 1
succeeds with items `[1, 2]`, page 2 fails; the paginator returns the error —
not the `[1, 2]` prefix — and requested each of the two endpoints exactly
once. -/
theorem get_all_with_next_link_all_or_nothing_witness :
    get_all_with_next_link failingSource 9 "/pg1" = .error "503 Server Error" ∧
    get_all_requests failingSource 9 "/pg1" = ["/pg1", "/pg2"] ∧
    (["/pg1", "/pg2"] : List String).Nodup := by
  have h := get_all_with_next_link_all_or_nothing failingSource
    [("/pg1", ⟨[1, 2], "https://graph.microsoft.com/v1.0/pg2"⟩)] "/pg2" "503 Server Error" 9
    (by exact ⟨by decide, rfl, by decide, trivial⟩) (by decide) rfl (by decide)
  exact ⟨h.1, h.2, by decide⟩

/-! ## The per-user record: one entry per policy name -/

/-- Keys present after a `dict` write: the written key and the old keys. -/
theorem pyDictInsert_mem_keys (k x : String) (v : Val) (l : List (String × Val)) :
    x ∈ (pyDictInsert k v l).map Prod.fst ↔ x = k ∨ x ∈ l.map Prod.fst := by
  induction l with
  | nil => simp [pyDictInsert]
  | cons kv rest ih =>
    obtain ⟨k', v'⟩ := kv
    by_cases h : k' = k
    · subst h
      simp [pyDictInsert]
    · simp [pyDictInsert, h, ih]
      tauto

/-- A `dict` write keeps the keys duplicate-free. -/
theorem pyDictInsert_keys_nodup (k : String) (v : Val) (l : List (String × Val))
    (h : (l.map Prod.fst).Nodup) : ((pyDictInsert k v l).map Prod.fst).Nodup := by
  induction l with
  | nil => simp [pyDictInsert]
  | cons kv rest ih =>
    obtain ⟨k', v'⟩ := kv
    simp only [List.map_cons, List.nodup_cons] at h
    by_cases hk : k' = k
    · subst hk
      simpa [pyDictInsert] using h
    · simp only [pyDictInsert, if_neg hk, List.map_cons, List.nodup_cons]
      refine ⟨?_, ih h.2⟩
      rw [pyDictInsert_mem_keys]
      rintro (rfl | hmem)
      · exact hk rfl
      · exact h.1 hmem

/-- Reading back the key just written. -/
theorem pyDictInsert_lookup_self (k : String) (v : Val) (l : List (String × Val)) :
    (pyDictInsert k v l).lookup k = some v := by
  induction l with
  | nil => simp [pyDictInsert]
  | cons kv rest ih =>
    obtain ⟨k', v'⟩ := kv
    by_cases h : k' = k
    · subst h
      simp [pyDictInsert]
    · have hbeq : (k == k') = false := beq_eq_false_iff_ne.mpr fun hkk => h hkk.symm
      simp only [pyDictInsert, if_neg h, List.lookup, hbeq]
      exact ih

/-- A `dict` write leaves every other key's value unchanged. -/
theorem pyDictInsert_lookup_other (k x : String) (v : Val) (l : List (String × Val))
    (h : x ≠ k) : (pyDictInsert k v l).lookup x = l.lookup x := by
  have hbeqk : (x == k) = false := beq_eq_false_iff_ne.mpr h
  induction l with
  | nil => simp [pyDictInsert, List.lookup, hbeqk]
  | cons kv rest ih =>
    obtain ⟨k', v'⟩ := kv
    by_cases hk : k' = k
    · subst hk
      simp [pyDictInsert, List.lookup, hbeqk]
    · simp only [pyDictInsert, if_neg hk, List.lookup]
      by_cases hx : x = k'
      · simp [hx]
      · have hbeq : (x == k') = false := beq_eq_false_iff_ne.mpr hx
        simp only [hbeq]
        exact ih

/-- The policy loop of `process_user` abstracted: folding `dict` writes keyed
by display name.  Writing one entry per policy leaves a key untouched when no
listed policy carries it. -/
theorem policyFold_lookup_preserved (f : Policy → Val) (policies : List Policy)
    (acc : List (String × Val)) (x : String)
    (hx : x ∉ policies.map Policy.displayName) :
    (policies.foldl (fun a q => pyDictInsert q.displayName (f q) a) acc).lookup x =
      acc.lookup x := by
  induction policies generalizing acc with
  | nil => rfl
  | cons q rest ih =>
    simp only [List.map_cons, List.mem_cons, not_or] at hx
    simp only [List.foldl_cons]
    rw [ih (pyDictInsert q.displayName (f q) acc) hx.2,
      pyDictInsert_lookup_other _ _ _ _ hx.1]

/-- The policy loop of `process_user`: with pairwise-distinct display names,
the final record keeps duplicate-free keys and holds, for every listed
policy, exactly the value written for it. -/
theorem policyFold_lookup (f : Policy → Val) (policies : List Policy)
    (acc : List (String × Val)) (hacc : (acc.map Prod.fst).Nodup)
    (hnames : (policies.map Policy.displayName).Nodup) :
    (((policies.foldl (fun a q => pyDictInsert q.displayName (f q) a) acc).map
        Prod.fst).Nodup) ∧
    ∀ p ∈ policies,
      (policies.foldl (fun a q => pyDictInsert q.displayName (f q) a) acc).lookup
          p.displayName = some (f p) := by
  induction policies generalizing acc with
  | nil => exact ⟨hacc, by simp⟩
  | cons q rest ih =>
    simp only [List.map_cons, List.nodup_cons] at hnames
    have hacc' := pyDictInsert_keys_nodup q.displayName (f q) acc hacc
    obtain ⟨hnodup, hrest⟩ := ih (pyDictInsert q.displayName (f q) acc) hacc' hnames.2
    refine ⟨hnodup, ?_⟩
    intro p hp
    rcases List.mem_cons.mp hp with rfl | hp'
    · simp only [List.foldl_cons]
      rw [policyFold_lookup_preserved f rest _ _ hnames.1,
        pyDictInsert_lookup_self]
    · simpa using hrest p hp'

/-- C2 (amended): when the snapshot's policy display names are pairwise
distinct, `process_user` succeeds whenever its single `memberOf` fetch does,
the record's keys are duplicate-free, and every policy of the snapshot has
exactly one boolean entry — its evaluation, present even when false — keyed
by its display name. -/
theorem process_user_one_entry_per_policy
    (fetch : String → Except UpstreamError (Page String)) (user : User)
    (ca_policies : List Policy) (page : Page String)
    (hfetch : fetch (memberOfEndpoint user.id) = .ok page)
    (hnames : (ca_policies.map Policy.displayName).Nodup) :
    ∃ r, process_user fetch user ca_policies = .ok r ∧
      (r.map Prod.fst).Nodup ∧
      ∀ p ∈ ca_policies,
        r.lookup p.displayName =
          some (.bool (calculate_included p user page.value)) := by
  have hbase : ((userResultBase user).map Prod.fst).Nodup := by
    simp [userResultBase]
  obtain ⟨h1, h2⟩ := policyFold_lookup
    (fun p => .bool (calculate_included p user page.value)) ca_policies
    (userResultBase user) hbase hnames
  exact ⟨_, by simp [process_user, hfetch], h1, h2⟩

/-- Concrete instantiation of `process_user_one_entry_per_policy`: two
distinct policy names, one evaluating true (the "All" sentinel) and one
false (empty conditions); both get their own entry. -/
theorem process_user_one_entry_per_policy_witness :
    ∃ r, process_user (fun _ => .ok ⟨["G1"], ""⟩) ⟨"u1", none, none, none, none, none⟩
        [⟨"P1", ⟨none, none, some ["All"], none⟩⟩, ⟨"P2", ⟨none, none, none, none⟩⟩] =
          .ok r ∧
      (r.map Prod.fst).Nodup ∧
      ∀ p ∈ [(⟨"P1", ⟨none, none, some ["All"], none⟩⟩ : Policy),
             ⟨"P2", ⟨none, none, none, none⟩⟩],
        r.lookup p.displayName =
          some (.bool (calculate_included p ⟨"u1", none, none, none, none, none⟩
            ["G1"])) :=
  process_user_one_entry_per_policy (fun _ => .ok ⟨["G1"], ""⟩)
    ⟨"u1", none, none, none, none, none⟩
    [⟨"P1", ⟨none, none, some ["All"], none⟩⟩, ⟨"P2", ⟨none, none, none, none⟩⟩]
    ⟨["G1"], ""⟩ rfl (by decide)

/-- C2 counterexample: two snapshot policies sharing the display name `"P"`.
The first evaluates to true (the "All" sentinel), yet the assembled record
carries a single `"P"` entry holding the second policy's false — the record
has six entries for five metadata fields plus two policies, so the first
policy's result is omitted. -/
theorem process_user_duplicate_name_counterexample :
    process_user (fun _ => .ok ⟨[], ""⟩) ⟨"u1", none, none, none, none, none⟩
        [⟨"P", ⟨none, none, some ["All"], none⟩⟩, ⟨"P", ⟨none, none, none, none⟩⟩] =
      .ok [("user", .str ""), ("upn", .str ""), ("job", .str ""),
           ("external", .bool false), ("enabled", .bool false), ("P", .bool false)] ∧
    calculate_included ⟨"P", ⟨none, none, some ["All"], none⟩⟩
        ⟨"u1", none, none, none, none, none⟩ [] = true :=
  ⟨rfl, by decide⟩

/-! ## `process_user` consults only the first `memberOf` page -/

/-- C10: `process_user` issues its single group fetch on the user's
`memberOf` endpoint and consults only that response's item list: two fetch
primitives that agree on the items of that one response — whatever their
cursors say and whatever they would return anywhere else — produce identical
records. -/
theorem process_user_first_page_only
    (f1 f2 : String → Except UpstreamError (Page String)) (user : User)
    (ca_policies : List Policy) (p1 p2 : Page String)
    (h1 : f1 (memberOfEndpoint user.id) = .ok p1)
    (h2 : f2 (memberOfEndpoint user.id) = .ok p2)
    (hv : p1.value = p2.value) :
    process_user f1 user ca_policies = process_user f2 user ca_policies := by
  simp only [process_user, h1, h2, hv]

/-- A one-page `memberOf` source: user `u1` is in group `G1`. -/
def memberOfOnePage : String → Except UpstreamError (Page String) := fun endpoint =>
  if endpoint = memberOfEndpoint "u1" then .ok ⟨["G1"], ""⟩
  else .error "404 Client Error"

/-- A two-page `memberOf` source: the first page carries `G1` and a
continuation cursor; the second page would add `G2`. -/
def memberOfTwoPages : String → Except UpstreamError (Page String) := fun endpoint =>
  if endpoint = memberOfEndpoint "u1" then
    .ok ⟨["G1"], "https://graph.microsoft.com/v1.0/next"⟩
  else if endpoint = "/next" then .ok ⟨["G2"], ""⟩
  else .error "404 Client Error"

/-- Concrete instantiation of `process_user_first_page_only`: against a
policy including group `G2`, the worker returns the same record whether or
not a second `memberOf` page carrying `G2` exists behind a cursor — and that
record marks the policy false, because only the first page is consulted. -/
theorem process_user_first_page_only_witness :
    process_user memberOfOnePage ⟨"u1", none, none, none, none, none⟩
        [⟨"P", ⟨none, none, none, some ["G2"]⟩⟩] =
      process_user memberOfTwoPages ⟨"u1", none, none, none, none, none⟩
        [⟨"P", ⟨none, none, none, some ["G2"]⟩⟩] ∧
    process_user memberOfTwoPages ⟨"u1", none, none, none, none, none⟩
        [⟨"P", ⟨none, none, none, some ["G2"]⟩⟩] =
      .ok [("user", .str ""), ("upn", .str ""), ("job", .str ""),
           ("external", .bool false), ("enabled", .bool false), ("P", .bool false)] :=
  ⟨process_user_first_page_only memberOfOnePage memberOfTwoPages
      ⟨"u1", none, none, none, none, none⟩ [⟨"P", ⟨none, none, none, some ["G2"]⟩⟩]
      ⟨["G1"], ""⟩ ⟨["G1"], "https://graph.microsoft.com/v1.0/next"⟩ rfl rfl rfl,
   rfl⟩

/-! ## The user-filter pipeline on the spec's ten-user scenario -/

/-- A member user with the given id. -/
def mkUser (i : String) : User := ⟨i, none, none, none, none, some "Member"⟩

/-- The candidate users `u1..u10` in directory order. -/
def users10 : List User :=
  [mkUser "u1", mkUser "u2", mkUser "u3", mkUser "u4", mkUser "u5",
   mkUser "u6", mkUser "u7", mkUser "u8", mkUser "u9", mkUser "u10"]

/-- The resolved member ids of the requested group: the even users. -/
def evensIds : List String := ["u2", "u4", "u6", "u8", "u10"]

/-- The even users in their original relative order. -/
def usersEven : List User :=
  [mkUser "u2", mkUser "u4", mkUser "u6", mkUser "u8", mkUser "u10"]

/-- The scenario configuration: a group filter, the member type filter,
sample ratio `1.0`, cap `3`. -/
def scenarioArgs : Args :=
  { groups := some ["GEven"], type := some "member", sample := some 1, number := some 3 }

/-- On the scenario inputs, the filter pipeline reduces to: keep the even
users, keep them all (type `member`), draw all five in the order of the
random draw `σ`, and cap at the first three of that order. -/
theorem filter_users_scenario_eq (σ : List Nat) :
    filter_users scenarioArgs evensIds σ users10 =
      .ok (((σ.take 5).filterMap fun i => usersEven[i]?).take 3) := by
  have h1 : (users10.filter fun user => evensIds.contains user.id) = usersEven := by
    decide
  have h2 : (usersEven.filter fun user =>
      pyLower (user.userType.getD "") = "member") = usersEven := by decide
  have hlen : usersEven.length = 5 := by decide
  simp only [filter_users, scenarioArgs, pyTruthyListOpt, pyTruthyStrOpt, Option.getD_some,
    mul_one, h1, if_true,
    (by decide : (decide (("member" : String) ≠ "")) = true),
    h2, hlen, random_sample, pySliceTo,
    (by norm_num : ¬((1 : ℚ) = 0)),
    (by decide : ¬((3 : Int) = 0))]
  have hp5 : pyInt ((5 : ℚ)) = 5 := by
    norm_num [pyInt]
  norm_num [hp5]
  simp

/-- All-valid index draws hit every position, so the draw keeps its length. -/
theorem length_filterMap_getElem {α : Type} (l : List α) (τ : List Nat)
    (h : ∀ i ∈ τ, i < l.length) :
    (τ.filterMap fun i => l[i]?).length = τ.length := by
  induction τ with
  | nil => rfl
  | cons i rest ih =>
    have hi : i < l.length := h i (by simp)
    simp [List.filterMap_cons, List.getElem?_eq_getElem hi,
      ih fun j hj => h j (by simp [hj])]

/-- A duplicate-free draw from a duplicate-free list stays duplicate-free. -/
theorem nodup_filterMap_getElem {α : Type} (l : List α) (τ : List Nat)
    (hτ : τ.Nodup) (hl : l.Nodup) :
    (τ.filterMap fun i => l[i]?).Nodup := by
  refine List.Nodup.filterMap ?_ hτ
  intro i j b hbi hbj
  rw [Option.mem_def] at hbi hbj
  have hi : i < l.length := by
    by_contra hge
    rw [List.getElem?_eq_none (by omega)] at hbi
    exact Option.noConfusion hbi
  exact List.getElem?_inj hi hl (hbi.trans hbj.symm)

/-- C3 (amended): on the scenario (group filter keeping the even users, type
filter keeping all, sample ratio 1.0, cap 3) the fixed pipeline order
group-filter, type-filter, sample, cap produces the first three of the
sampler's permutation of the five even users: a duplicate-free selection of
three even users, equal to the first three evens in original relative order
exactly when the draw preserves the original order. -/
theorem filter_users_scenario_order (σ : List Nat) (hlen : σ.length = 5)
    (hmem : ∀ i ∈ σ, i < 5) (hnodup : σ.Nodup) :
    ∃ out, filter_users scenarioArgs evensIds σ users10 = .ok out ∧
      out = ((σ.take 5).filterMap fun i => usersEven[i]?).take 3 ∧
      out.length = 3 ∧ out.Nodup ∧ (∀ u ∈ out, u ∈ usersEven) ∧
      (σ = [0, 1, 2, 3, 4] → out = [mkUser "u2", mkUser "u4", mkUser "u6"]) := by
  have hlen5 : (5 : Nat) = usersEven.length := by decide
  have htake5 : σ.take 5 = σ := List.take_of_length_le (by omega)
  refine ⟨_, filter_users_scenario_eq σ, rfl, ?_, ?_, ?_, ?_⟩
  · rw [htake5, List.length_take, length_filterMap_getElem usersEven σ
      (fun i hi => hlen5 ▸ hmem i hi), hlen]
    decide
  · exact (nodup_filterMap_getElem usersEven (σ.take 5)
      (hnodup.sublist (List.take_sublist 5 σ)) (by decide)).sublist
      (List.take_sublist 3 _)
  · intro u hu
    obtain ⟨i, _, hget⟩ := List.mem_filterMap.mp (List.mem_of_mem_take hu)
    exact List.getElem?_mem hget
  · rintro rfl
    decide

/-- Concrete instantiation of `filter_users_scenario_order` at the
order-preserving draw `[0, 1, 2, 3, 4]`: the pipeline then returns exactly
`u2, u4, u6` — the first three even users in original relative order. -/
theorem filter_users_scenario_order_witness :
    ∃ out, filter_users scenarioArgs evensIds [0, 1, 2, 3, 4] users10 = .ok out ∧
      out = (([0, 1, 2, 3, 4].take 5).filterMap fun i => usersEven[i]?).take 3 ∧
      out.length = 3 ∧ out.Nodup ∧ (∀ u ∈ out, u ∈ usersEven) ∧
      ([0, 1, 2, 3, 4] = [0, 1, 2, 3, 4] →
        out = [mkUser "u2", mkUser "u4", mkUser "u6"]) :=
  filter_users_scenario_order [0, 1, 2, 3, 4] rfl (by decide) (by decide)

/-- C3 counterexample: `random.sample` with ratio 1.0 is not a no-op — it
returns the population in the order drawn.  Under the reversing draw the
scenario pipeline outputs `u10, u8, u6`, not the first three of
`u2, u4, u6, u8, u10` in original relative order. -/
theorem filter_users_sample_shuffles_counterexample :
    filter_users scenarioArgs evensIds [4, 3, 2, 1, 0] users10 =
      .ok [mkUser "u10", mkUser "u8", mkUser "u6"] ∧
    ([mkUser "u10", mkUser "u8", mkUser "u6"] : List User) ≠
      [mkUser "u2", mkUser "u4", mkUser "u6"] := by
  refine ⟨?_, by decide⟩
  rw [filter_users_scenario_eq [4, 3, 2, 1, 0]]
  rfl

/-! ## Configuration validation versus fetch order -/

/-- C4 (amended): an unknown user-type value is rejected by argparse before
any fetch (empty event trace, config error); a sample ratio, by contrast, is
not validated at parse time — parsing accepts every float — and on runs
without a type filter any abnormal end of the run is a `ValueError` raised
after the policy and user fetches have both happened. -/
theorem config_validation_timing (args : Args) (gm : List String) (σ : List Nat)
    (users : List User) :
    (∀ t, args.type = some t → t ≠ "member" → t ≠ "guest" →
      run_model args gm σ users =
        ([], some (.configError ("argument -t (--type): invalid choice: " ++ t)))) ∧
    (args.type = none → parse_arguments args = .ok args) ∧
    (args.type = none → ∀ e, (run_model args gm σ users).2 = some e →
      (∃ msg, e = .valueError msg) ∧
      ∃ tail, (run_model args gm σ users).1 =
        Event.fetchPolicies :: Event.fetchUsers :: tail) := by
  refine ⟨?_, ?_, ?_⟩
  · intro t ht h1 h2
    simp [run_model, parse_arguments, ht, h1, h2]
  · intro h
    simp [parse_arguments, h]
  · intro h e he
    have hp : parse_arguments args = .ok args := by simp [parse_arguments, h]
    cases hf : filter_users args gm σ users with
    | error m =>
      have hr : run_model args gm σ users =
          ([Event.fetchPolicies, Event.fetchUsers] ++
            (if pyTruthyListOpt args.groups then
              (args.groups.getD []).map Event.fetchGroupMembers
            else []),
           some (.valueError m)) := by
        simp [run_model, hp, hf]
      rw [hr] at he
      simp only [Option.some_inj] at he
      refine ⟨⟨m, he.symm⟩,
        ⟨(if pyTruthyListOpt args.groups then
            (args.groups.getD []).map Event.fetchGroupMembers
          else []), ?_⟩⟩
      rw [hr]
      rfl
    | ok filtered =>
      have hr : (run_model args gm σ users).2 = none := by
        simp [run_model, hp, hf]
      rw [hr] at he
      exact Option.noConfusion he

/-- Concrete instantiation of `config_validation_timing`: a run typed
`-t admin` dies at parsing with no fetch event, while a run with the
out-of-range ratio `--sample 2` passes parsing untouched. -/
theorem config_validation_timing_witness :
    run_model { type := some "admin" } [] [] [] =
      ([], some (.configError "argument -t (--type): invalid choice: admin")) ∧
    parse_arguments { sample := some 2 } = .ok { sample := some 2 } :=
  ⟨(config_validation_timing { type := some "admin" } [] [] []).1 "admin" rfl
      (by decide) (by decide),
   (config_validation_timing { sample := some 2 } [] [] []).2.1 rfl⟩

/-- C4 counterexample: with the out-of-range sample ratio `2`, the run
fetches the policies and the users first and only then dies with
`random.sample`'s `ValueError` — not with a config error before any fetch;
and with the (also out-of-range) ratio `0` the truthiness guard
`if args.sample:` silently skips sampling and the run completes with no
error at all. -/
theorem sample_ratio_not_prevalidated_counterexample :
    run_model { sample := some 2 } [] [0] [mkUser "u1"] =
      ([Event.fetchPolicies, Event.fetchUsers],
       some (.valueError "Sample larger than population or is negative")) ∧
    run_model { sample := some 0 } [] [0] [mkUser "u1"] =
      ([Event.fetchPolicies, Event.fetchUsers, Event.fetchMemberOf "u1"], none) := by
  constructor
  · have hq : pyInt ((2 : ℚ)) = 2 := by norm_num [pyInt]
    simp [run_model, parse_arguments, filter_users, pyTruthyListOpt, pyTruthyStrOpt,
      random_sample, hq]
  · simp [run_model, parse_arguments, filter_users, pyTruthyListOpt, pyTruthyStrOpt,
      mkUser]

end PyMatrix
